import Mathlib

/-!
# Verification of the AFTC data pipeline and decision engine

A shallow embedding, in Lean 4, of the parts of the AFTC repository that the
specification's testable properties talk about:

* `core/database/historical_data.py` — the historical series store
  (`update_historical_data`, `load_historical_data`);
* `core/database/realtime_data.py` — the real-time snapshot poller
  (`_update_data`, `_update_loop`);
* `strategies/single_currency/simple_strategy.py` — `SimpleStrategy.make_decision`;
* `strategies/multi_currency/correlation_strategy.py` —
  `CorrelationStrategy.make_decision` and `_calculate_divergence`;
* `core/engine/trading_bot.py` — `TradingBot.check_and_execute`.

Dates are modelled as natural numbers (day indices); rates are rationals.
I/O-returning calls are modelled by passing their result in as a parameter:
a fetch that can raise is an `Option`/sum-typed parameter, a pandas float
that can be NaN is an `Option ℚ` (with `none` = NaN).
-/

namespace AFTC

/-- One historical price observation `{date, rate}` as stored in the
per-instrument JSON file (`PricePoint` of the data model). -/
structure PricePoint where
  date : Nat
  rate : ℚ
deriving DecidableEq

/-- Pandas `combined_data[~combined_data.index.duplicated(keep='last')]`:
keep, for each date, only the **last** row carrying that date, in the order
in which those surviving rows appear. -/
def keepLastByDate : List PricePoint → List PricePoint
  | [] => []
  | p :: rest =>
    if rest.any (fun q => q.date == p.date) then keepLastByDate rest
    else p :: keepLastByDate rest

/-- `HistoricalDataManager.update_historical_data`, lines 98–140 of
`historical_data.py`, as a function of the cached series `local_data` and of
the fetch outcome `new_data` (`none` = the API call raised, swallowed by the
outer `except`; `some []` = the API returned no rows).  Returns the series
that is now cached plus a `Bool` recording whether `_save_data` was reached.
The code concatenates old-then-new and drops duplicated dates keeping the
last occurrence; when the cache is empty the fetched frame is saved as-is;
it never re-sorts. -/
def update_historical_data (local_data : List PricePoint) :
    Option (List PricePoint) → List PricePoint × Bool
  | none => (local_data, false)
  | some [] => (local_data, false)
  | some (p :: ps) =>
    let new_df := p :: ps
    let combined :=
      if local_data.isEmpty then new_df
      else keepLastByDate (local_data ++ new_df)
    (combined, true)

/-- The date-range filter at the end of `load_historical_data`
(lines 57–61): `data[data.index >= start]` then `data[data.index <= end]`,
each applied only when the bound was given. -/
def filterRange (start_date end_date : Option Nat) (data : List PricePoint) :
    List PricePoint :=
  let d1 := match start_date with
    | some s => data.filter (fun p => s ≤ p.date)
    | none => data
  match end_date with
  | some e => d1.filter (fun p => p.date ≤ e)
  | none => d1

/-- The series held on disk after `load_historical_data` has (possibly)
refreshed it: the refresh runs exactly when the cache is empty or
`_need_update` said so, and `_load_local_data` then re-reads what
`update_historical_data` persisted. -/
def post_refresh_cache (cache : List PricePoint) (fetched : Option (List PricePoint))
    (need_update : Bool) : List PricePoint :=
  if cache.isEmpty || need_update then (update_historical_data cache fetched).1
  else cache

/-- `HistoricalDataManager.load_historical_data`, lines 37–63: load the local
series, refresh it when empty or stale, then filter to the requested range.
`fetched` is the outcome the API would deliver if the refresh runs. -/
def load_historical_data (cache : List PricePoint) (fetched : Option (List PricePoint))
    (need_update : Bool) (start_date end_date : Option Nat) : List PricePoint :=
  filterRange start_date end_date (post_refresh_cache cache fetched need_update)

/-! ### Lemmas about the keep-last merge -/

theorem keepLastByDate_subset {xs : List PricePoint} {q : PricePoint}
    (h : q ∈ keepLastByDate xs) : q ∈ xs := by
  induction xs with
  | nil => simp [keepLastByDate] at h
  | cons p rest ih =>
    cases hdup : rest.any (fun r => r.date == p.date) with
    | true =>
      simp only [keepLastByDate, hdup, if_true] at h
      exact List.mem_cons_of_mem _ (ih h)
    | false =>
      simp only [keepLastByDate, hdup] at h
      rcases List.mem_cons.mp h with h | h
      · exact h ▸ List.mem_cons_self _ _
      · exact List.mem_cons_of_mem _ (ih h)

theorem keepLastByDate_ne_nil {xs : List PricePoint} (h : xs ≠ []) :
    keepLastByDate xs ≠ [] := by
  induction xs with
  | nil => exact absurd rfl h
  | cons p rest ih =>
    cases hdup : rest.any (fun r => r.date == p.date) with
    | true =>
      simp only [keepLastByDate, hdup, if_true]
      rcases List.any_eq_true.mp hdup with ⟨r, hr, _⟩
      exact ih (List.ne_nil_of_mem hr)
    | false => simp [keepLastByDate, hdup]

theorem keepLastByDate_nodup_dates (xs : List PricePoint) :
    ((keepLastByDate xs).map PricePoint.date).Nodup := by
  induction xs with
  | nil => simp [keepLastByDate]
  | cons p rest ih =>
    cases hdup : rest.any (fun r => r.date == p.date) with
    | true => simpa only [keepLastByDate, hdup, if_true] using ih
    | false =>
      simp only [keepLastByDate, hdup, Bool.false_eq_true, if_false, List.map_cons,
        List.nodup_cons]
      refine ⟨?_, ih⟩
      intro hmem
      rcases List.mem_map.mp hmem with ⟨q, hq, hqd⟩
      have hq' : q ∈ rest := keepLastByDate_subset hq
      have : rest.any (fun r => r.date == p.date) = true :=
        List.any_eq_true.mpr ⟨q, hq', by simp [hqd]⟩
      rw [hdup] at this
      exact Bool.false_ne_true this

theorem keepLastByDate_eq_self {xs : List PricePoint}
    (h : (xs.map PricePoint.date).Nodup) : keepLastByDate xs = xs := by
  induction xs with
  | nil => rfl
  | cons p rest ih =>
    simp only [List.map_cons, List.nodup_cons] at h
    have hdup : rest.any (fun r => r.date == p.date) = false := by
      cases hc : rest.any (fun r => r.date == p.date) with
      | false => rfl
      | true =>
        rcases List.any_eq_true.mp hc with ⟨q, hq, hqd⟩
        exact absurd (List.mem_map.mpr ⟨q, hq, by simpa using hqd⟩) h.1
    simp [keepLastByDate, hdup, ih h.2]

theorem find?_keepLastByDate (xs : List PricePoint) (d : Nat) :
    (keepLastByDate xs).find? (fun p => p.date == d) =
      xs.reverse.find? (fun p => p.date == d) := by
  induction xs with
  | nil => rfl
  | cons p rest ih =>
    rw [List.reverse_cons, List.find?_append]
    cases hdup : rest.any (fun r => r.date == p.date) with
    | true =>
      simp only [keepLastByDate, hdup, if_true, ih]
      cases hpd : p.date == d with
      | false =>
        have h1 : List.find? (fun q => q.date == d) [p] = none := by
          simp [List.find?, hpd]
        rw [h1, Option.or_none]
      | true =>
        have hpd' : p.date = d := eq_of_beq hpd
        rcases List.any_eq_true.mp hdup with ⟨q, hq, hqd⟩
        have hq' : q ∈ rest.reverse := List.mem_reverse.mpr hq
        have hqd' : q.date == d := by
          have : q.date = p.date := eq_of_beq hqd
          simp [this, hpd']
        have hsome : (rest.reverse.find? (fun p => p.date == d)).isSome := by
          rw [List.find?_isSome]
          exact ⟨q, hq', hqd'⟩
        rcases Option.isSome_iff_exists.mp hsome with ⟨a, ha⟩
        rw [ha]
        rfl
    | false =>
      simp only [keepLastByDate, hdup, Bool.false_eq_true, if_false]
      cases hpd : p.date == d with
      | false =>
        have h1 : List.find? (fun q => q.date == d) [p] = none := by
          simp [List.find?, hpd]
        rw [h1, Option.or_none, List.find?_cons, hpd, ih]
      | true =>
        have hnone : rest.reverse.find? (fun p => p.date == d) = none := by
          rw [List.find?_eq_none]
          intro x hx hxd
          have hx' : x ∈ rest := List.mem_reverse.mp hx
          have hxe : x.date = d := eq_of_beq hxd
          have hpe : p.date = d := eq_of_beq hpd
          have : rest.any (fun r => r.date == p.date) = true :=
            List.any_eq_true.mpr ⟨x, hx', by simp [hxe, hpe]⟩
          rw [hdup] at this
          exact Bool.false_ne_true this
        rw [hnone, Option.none_or, List.find?_cons, hpd]
        simp [List.find?, hpd]

theorem find?_of_nodup_dates {l : List PricePoint} {q : PricePoint}
    (hnd : (l.map PricePoint.date).Nodup) (hq : q ∈ l) :
    l.find? (fun p => p.date == q.date) = some q := by
  induction l with
  | nil => exact absurd hq (List.not_mem_nil q)
  | cons a rest ih =>
    simp only [List.map_cons, List.nodup_cons] at hnd
    rcases List.mem_cons.mp hq with rfl | hq'
    · simp [List.find?_cons]
    · have hne : (a.date == q.date) = false := by
        cases had : a.date == q.date with
        | false => rfl
        | true =>
          have : a.date = q.date := eq_of_beq had
          exact absurd (this ▸ List.mem_map.mpr ⟨q, hq', rfl⟩) hnd.1
      rw [List.find?_cons, hne]
      exact ih hnd.2 hq'

/-! ### C1: the merge of `update_historical_data` -/

/-- C1 counterexample: the merge in `update_historical_data` never re-sorts,
so a fetched batch whose date falls between two cached dates yields a series
whose dates are **not** in ascending order: cache `[(1,·),(3,·)]` merged with
batch `[(2,·)]` gives dates `[1, 3, 2]`.  This refutes the "dates are in
ascending order" conjunct of the claim as stated. -/
theorem C1_counterexample :
    ¬ List.Pairwise (· < ·)
      (((update_historical_data [⟨1, 1⟩, ⟨3, 1⟩] (some [⟨2, 1⟩])).1).map
        PricePoint.date) := by
  decide

/-- C1 (amended): for a nonempty cached series and any fetched batch with
unique dates, the merged series of `update_historical_data` has unique dates
and, for every point `(d, r)` of the batch, looking the date `d` up in the
merged series yields exactly the newly fetched rate `r` (keep-newest; this
covers in particular every date present in both the old series and the
batch).  Ascending order holds additionally whenever the batch's dates are
ascending and all lie strictly after every cached date — which is the range
`[last_cached_date+1, today]` the refresh actually requests — because the
code concatenates old-then-new without re-sorting. -/
theorem C1_merge_unique_keep_newest (old new_batch : List PricePoint) (d : Nat) (r : ℚ)
    (hold : old ≠ [])
    (hnew : (new_batch.map PricePoint.date).Nodup)
    (hd_new : (⟨d, r⟩ : PricePoint) ∈ new_batch) :
    ((update_historical_data old (some new_batch)).1.map PricePoint.date).Nodup ∧
    (update_historical_data old (some new_batch)).1.find? (fun p => p.date == d) =
      some ⟨d, r⟩ ∧
    (List.Pairwise (· < ·) (old.map PricePoint.date) →
      List.Pairwise (· < ·) (new_batch.map PricePoint.date) →
      (∀ a ∈ old.map PricePoint.date, ∀ b ∈ new_batch.map PricePoint.date, a < b) →
      List.Pairwise (· < ·)
        ((update_historical_data old (some new_batch)).1.map PricePoint.date)) := by
  obtain ⟨n0, ns, rfl⟩ : ∃ n0 ns, new_batch = n0 :: ns := by
    cases new_batch with
    | nil => exact absurd hd_new (List.not_mem_nil _)
    | cons n0 ns => exact ⟨n0, ns, rfl⟩
  have hempty : old.isEmpty = false := by
    cases old with
    | nil => exact absurd rfl hold
    | cons _ _ => rfl
  have hmerge : (update_historical_data old (some (n0 :: ns))).1 =
      keepLastByDate (old ++ n0 :: ns) := by
    simp [update_historical_data, hempty]
  refine ⟨?_, ?_, ?_⟩
  · rw [hmerge]
    exact keepLastByDate_nodup_dates _
  · rw [hmerge, find?_keepLastByDate, List.reverse_append, List.find?_append]
    have hq : (⟨d, r⟩ : PricePoint) ∈ (n0 :: ns).reverse := List.mem_reverse.mpr hd_new
    have hnd : ((n0 :: ns).reverse.map PricePoint.date).Nodup := by
      rw [List.map_reverse, List.nodup_reverse]
      exact hnew
    have := find?_of_nodup_dates hnd hq
    rw [this]
    rfl
  · intro hasc_old hasc_new hafter
    have hnd_old : (old.map PricePoint.date).Nodup :=
      (hasc_old.imp fun h => Nat.ne_of_lt h)
    have hnd_new : ((n0 :: ns).map PricePoint.date).Nodup := hnew
    have hnd_all : ((old ++ n0 :: ns).map PricePoint.date).Nodup := by
      rw [List.map_append, List.nodup_append]
      refine ⟨hnd_old, hnd_new, ?_⟩
      intro a ha hb
      exact absurd (hafter a ha a hb) (lt_irrefl a)
    rw [hmerge, keepLastByDate_eq_self hnd_all, List.map_append,
      List.pairwise_append]
    exact ⟨hasc_old, hasc_new, hafter⟩

/-- Witness for `C1_merge_unique_keep_newest` at cache `[(1, 2)]` and batch
`[(1, 3), (2, 4)]`: date 1 is present in both, and the merged rate at date 1
is the newly fetched `3`. -/
theorem C1_merge_unique_keep_newest_witness :
    (((update_historical_data [⟨1, 2⟩] (some [⟨1, 3⟩, ⟨2, 4⟩])).1.map
        PricePoint.date).Nodup) ∧
    (update_historical_data [⟨1, 2⟩] (some [⟨1, 3⟩, ⟨2, 4⟩])).1.find?
        (fun p => p.date == 1) = some ⟨1, 3⟩ ∧
    (List.Pairwise (· < ·) (([⟨1, 2⟩] : List PricePoint).map PricePoint.date) →
      List.Pairwise (· < ·) (([⟨1, 3⟩, ⟨2, 4⟩] : List PricePoint).map PricePoint.date) →
      (∀ a ∈ ([⟨1, 2⟩] : List PricePoint).map PricePoint.date,
        ∀ b ∈ ([⟨1, 3⟩, ⟨2, 4⟩] : List PricePoint).map PricePoint.date, a < b) →
      List.Pairwise (· < ·)
        ((update_historical_data [⟨1, 2⟩] (some [⟨1, 3⟩, ⟨2, 4⟩])).1.map
          PricePoint.date)) :=
  C1_merge_unique_keep_newest [⟨1, 2⟩] [⟨1, 3⟩, ⟨2, 4⟩] 1 3 (by decide) (by decide)
    (by decide)

/-! ### C10: empty fetch leaves the store untouched -/

/-- C10: when the API returns an empty batch, `update_historical_data` takes
the `if not new_data: return` early exit (line 119), so the cached series is
unchanged and `_save_data` is never reached (the `Bool` component is
`false`). -/
theorem C10_empty_fetch_is_noop (cache : List PricePoint) :
    update_historical_data cache (some []) = (cache, false) :=
  rfl

/-! ### C7: when `load_historical_data` has no data to return -/

/-- C7: `load_historical_data` never raises (all fetch/IO errors are caught
below it); it always returns the possibly-refreshed cached series filtered to
the requested range, and that underlying series is empty — the
`DataUnavailable` outcome, an empty result whatever the range — exactly when
no cached data existed and the refresh failed too (the fetch raised or
returned no rows).  In every other case the filtered nonempty cached series
is returned. -/
theorem C7_load_data_unavailable (cache : List PricePoint)
    (fetched : Option (List PricePoint)) (need_update : Bool)
    (start_date end_date : Option Nat) :
    load_historical_data cache fetched need_update start_date end_date =
      filterRange start_date end_date (post_refresh_cache cache fetched need_update) ∧
    (post_refresh_cache cache fetched need_update = [] ↔
      cache = [] ∧ (fetched = none ∨ fetched = some [])) := by
  refine ⟨rfl, ?_⟩
  cases fetched with
  | none =>
    simp [post_refresh_cache, update_historical_data, ite_self]
  | some l =>
    cases l with
    | nil => simp [post_refresh_cache, update_historical_data, ite_self]
    | cons p ps =>
      have hne : post_refresh_cache cache (some (p :: ps)) need_update ≠ [] := by
        unfold post_refresh_cache
        by_cases hb : (cache.isEmpty || need_update) = true
        · rw [if_pos hb]
          cases cache with
          | nil => simp [update_historical_data]
          | cons c cs =>
            have : (update_historical_data (c :: cs) (some (p :: ps))).1 =
                keepLastByDate ((c :: cs) ++ p :: ps) := by
              simp [update_historical_data]
            rw [this]
            exact keepLastByDate_ne_nil (by simp)
        · rw [if_neg hb]
          intro hc
          subst hc
          simp at hb
      constructor
      · intro h
        exact absurd h hne
      · rintro ⟨-, h | h⟩ <;> simp at h

/-! ## `core/database/realtime_data.py` — the real-time snapshot poller

`_update_data` iterates over `self.currency_pairs`, calls
`get_exchange_rate` for each, and builds the fresh dict `updated_data` from
the pairs whose fetch returned non-`None`; only then does it swap
`self.latest_data` to the new dict under the lock and append the snapshot to
the daily journal (whose writer swallows its own exceptions).  A fetch may
also raise an exception that `get_exchange_rate` does not catch (e.g. a JSON
decode error); that aborts `_update_data` **before** the swap.  Snapshots
are modelled as association lists pair ↦ rate (the per-tick timestamp field
carries no information the claims mention). -/

/-- Outcome of one `get_exchange_rate` call: a rate, `None` (the request
failed and was caught inside the connector), or an uncaught exception. -/
inductive FetchOutcome where
  | ok (rate : ℚ)
  | failed
  | raised
deriving DecidableEq

/-- The `for pair in self.currency_pairs` loop of `_update_data` (lines
81–92): build the fresh `updated_data` from the successful fetches, in
configuration order; an uncaught exception at any pair aborts the whole tick
(`none`), discarding the partially built dict. -/
def collect_rates (fetch : String → FetchOutcome) :
    List String → Option (List (String × ℚ))
  | [] => some []
  | p :: ps =>
    match fetch p with
    | .ok r => (collect_rates fetch ps).map (fun rest => (p, r) :: rest)
    | .failed => collect_rates fetch ps
    | .raised => none

/-- Observable outcome of one `_update_data` tick. -/
structure TickResult where
  latest : List (String × ℚ)
  raised : Bool
  journal_error_logged : Bool
deriving DecidableEq

/-- `RealtimeDataManager._update_data` (lines 76–99) as a state transition on
`self.latest_data`: on an uncaught fetch exception the swap at line 96 is
never reached, so the previous snapshot stays; otherwise the brand-new dict
replaces it wholesale and `_save_data_to_file` runs, logging (and otherwise
ignoring) any journal-write failure. -/
def update_data (pairs : List String) (fetch : String → FetchOutcome)
    (journal_write_fails : Bool) (latest_data : List (String × ℚ)) : TickResult :=
  match collect_rates fetch pairs with
  | none => { latest := latest_data, raised := true, journal_error_logged := false }
  | some updated =>
    { latest := updated, raised := false, journal_error_logged := journal_write_fails }

/-- One iteration of `RealtimeDataManager._update_loop` (lines 66–74):
returns the snapshot after the iteration, the seconds slept, and whether the
loop keeps running.  An exception from `_update_data` is caught, logged, and
followed by a fixed 5-second backoff; the loop only exits when `stop_flag`
is set. -/
def update_loop_step (update_interval : Nat) (pairs : List String)
    (fetch : String → FetchOutcome) (journal_write_fails : Bool)
    (stop_set : Bool) (latest_data : List (String × ℚ)) :
    List (String × ℚ) × Nat × Bool :=
  if stop_set then (latest_data, 0, false)
  else
    let t := update_data pairs fetch journal_write_fails latest_data
    if t.raised then (t.latest, 5, true) else (t.latest, update_interval, true)

theorem collect_rates_eq_filterMap (fetch : String → FetchOutcome)
    (pairs : List String) (h : ∀ p ∈ pairs, fetch p ≠ .raised) :
    collect_rates fetch pairs =
      some (pairs.filterMap (fun p =>
        match fetch p with
        | .ok r => some (p, r)
        | _ => none)) := by
  induction pairs with
  | nil => rfl
  | cons q qs ih =>
    have hq := h q (List.mem_cons_self _ _)
    have hqs : ∀ p ∈ qs, fetch p ≠ .raised :=
      fun p hp => h p (List.mem_cons_of_mem _ hp)
    cases hfq : fetch q with
    | ok r => simp [collect_rates, hfq, ih hqs, List.filterMap_cons]
    | failed => simp [collect_rates, hfq, ih hqs, List.filterMap_cons]
    | raised => exact absurd hfq hq

theorem mem_keys_of_successes (fetch : String → FetchOutcome)
    (pairs : List String) (p : String) :
    p ∈ (pairs.filterMap (fun q =>
        match fetch q with
        | .ok r => some (q, r)
        | _ => none)).map Prod.fst ↔
      p ∈ pairs ∧ ∃ r, fetch p = .ok r := by
  induction pairs with
  | nil => simp
  | cons q qs ih =>
    cases hfq : fetch q with
    | ok r =>
      simp only [List.filterMap_cons, hfq, List.map_cons, List.mem_cons, ih]
      constructor
      · rintro (rfl | ⟨hp, hr⟩)
        · exact ⟨Or.inl rfl, r, hfq⟩
        · exact ⟨Or.inr hp, hr⟩
      · rintro ⟨rfl | hp, hr⟩
        · exact Or.inl rfl
        · exact Or.inr ⟨hp, hr⟩
    | failed =>
      simp only [List.filterMap_cons, hfq, List.mem_cons, ih]
      constructor
      · rintro ⟨hp, hr⟩
        exact ⟨Or.inr hp, hr⟩
      · rintro ⟨rfl | hp, hr⟩
        · rcases hr with ⟨r, hr⟩
          rw [hfq] at hr
          exact absurd hr (by simp)
        · exact ⟨hp, hr⟩
    | raised =>
      simp only [List.filterMap_cons, hfq, List.mem_cons, ih]
      constructor
      · rintro ⟨hp, hr⟩
        exact ⟨Or.inr hp, hr⟩
      · rintro ⟨rfl | hp, hr⟩
        · rcases hr with ⟨r, hr⟩
          rw [hfq] at hr
          exact absurd hr (by simp)
        · exact ⟨hp, hr⟩

/-! ### C2: each published snapshot holds exactly that tick's successes -/

/-- C2: on a tick in which no fetch raises an uncaught exception, the
snapshot published by `_update_data` contains a pair exactly when that pair
is configured and its fetch returned a rate this tick; in particular a pair
present in the previous snapshot whose fetch returned `None` this tick is
absent, whatever the previous snapshot held. -/
theorem C2_snapshot_exactly_successes (pairs : List String)
    (fetch : String → FetchOutcome) (journal_write_fails : Bool)
    (prev : List (String × ℚ)) (p : String)
    (hnoraise : ∀ q ∈ pairs, fetch q ≠ .raised) :
    (p ∈ (update_data pairs fetch journal_write_fails prev).latest.map Prod.fst ↔
      p ∈ pairs ∧ ∃ r, fetch p = .ok r) ∧
    (fetch p = .failed →
      p ∉ (update_data pairs fetch journal_write_fails prev).latest.map Prod.fst) := by
  have hu : (update_data pairs fetch journal_write_fails prev).latest =
      pairs.filterMap (fun q =>
        match fetch q with
        | .ok r => some (q, r)
        | _ => none) := by
    unfold update_data
    rw [collect_rates_eq_filterMap fetch pairs hnoraise]
  rw [hu]
  refine ⟨mem_keys_of_successes fetch pairs p, ?_⟩
  intro hfail hmem
  rcases ((mem_keys_of_successes fetch pairs p).mp hmem).2 with ⟨r, hr⟩
  rw [hfail] at hr
  exact absurd hr (by simp)

/-- Witness for `C2_snapshot_exactly_successes`: two configured pairs, the
first succeeds and the second returns `None`; the second was in the previous
snapshot and is absent from the new one. -/
theorem C2_snapshot_exactly_successes_witness :
    (("USD/JPY" : String) ∈
        (update_data ["EUR/USD", "USD/JPY"]
          (fun q => if q = "EUR/USD" then .ok 1 else .failed) false
          [("USD/JPY", 155)]).latest.map Prod.fst ↔
      ("USD/JPY" : String) ∈ (["EUR/USD", "USD/JPY"] : List String) ∧
        ∃ r, (fun q : String => if q = "EUR/USD" then FetchOutcome.ok 1
          else FetchOutcome.failed) "USD/JPY" = .ok r) ∧
    ((fun q : String => if q = "EUR/USD" then FetchOutcome.ok 1
        else FetchOutcome.failed) "USD/JPY" = .failed →
      ("USD/JPY" : String) ∉
        (update_data ["EUR/USD", "USD/JPY"]
          (fun q => if q = "EUR/USD" then .ok 1 else .failed) false
          [("USD/JPY", 155)]).latest.map Prod.fst) :=
  C2_snapshot_exactly_successes ["EUR/USD", "USD/JPY"]
    (fun q => if q = "EUR/USD" then .ok 1 else .failed) false
    [("USD/JPY", 155)] "USD/JPY" (by decide)

/-! ### C8: what a tick-level exception actually does -/

/-- C8 counterexample: with pairs `["EUR/USD", "USD/JPY"]` where the first
fetch succeeds and the second raises, the swap of `self.latest_data` at line
96 is never reached: the previous snapshot `[("GBP/USD", 2)]` persists
unchanged and the pre-failure success `"EUR/USD"` is **not** published —
refuting "a snapshot containing the instruments that succeeded before the
failure is still published". -/
theorem C8_counterexample :
    (update_loop_step 60 ["EUR/USD", "USD/JPY"]
        (fun q => if q = "EUR/USD" then .ok 1 else .raised) false false
        [("GBP/USD", 2)]).1 = [("GBP/USD", 2)] ∧
    ("EUR/USD" : String) ∉
      ((update_loop_step 60 ["EUR/USD", "USD/JPY"]
        (fun q => if q = "EUR/USD" then .ok 1 else .raised) false false
        [("GBP/USD", 2)]).1.map Prod.fst) := by
  decide

/-- C8 (amended): on an uncaught fetch exception within a tick the tick is
abandoned **before** the snapshot swap — no new snapshot is published and the
previous one persists — and `_update_loop` catches the error and resumes
after a fixed 5-second backoff instead of terminating.  A journal-write
failure, by contrast, is swallowed inside `_save_data_to_file`: the tick's
full snapshot of successful fetches is still published (whatever
`journal_write_fails` is) and polling continues on the normal interval.  In
neither case does the update loop stop. -/
theorem C8_tick_failure_behavior (update_interval : Nat) (pairs : List String)
    (fetch : String → FetchOutcome) (journal_write_fails : Bool)
    (prev : List (String × ℚ)) :
    (collect_rates fetch pairs = none →
      update_loop_step update_interval pairs fetch journal_write_fails false prev =
        (prev, 5, true)) ∧
    (∀ updated, collect_rates fetch pairs = some updated →
      update_loop_step update_interval pairs fetch journal_write_fails false prev =
        (updated, update_interval, true)) := by
  constructor
  · intro h
    simp [update_loop_step, update_data, h]
  · intro updated h
    simp [update_loop_step, update_data, h]

/-- Witness for `C8_tick_failure_behavior`: a tick whose second fetch raises
keeps the old snapshot and backs off 5 seconds; a tick with a failing
journal write still publishes its snapshot and sleeps the normal interval.
Both ticks leave the loop running. -/
theorem C8_tick_failure_behavior_witness :
    (update_loop_step 60 ["EUR/USD", "USD/JPY"]
        (fun q => if q = "EUR/USD" then .ok 1 else .raised) false false
        [("GBP/USD", 2)] = ([("GBP/USD", 2)], 5, true)) ∧
    (update_loop_step 60 ["EUR/USD"] (fun _ => .ok 1) true false [] =
        ([("EUR/USD", 1)], 60, true)) :=
  ⟨(C8_tick_failure_behavior 60 ["EUR/USD", "USD/JPY"]
      (fun q => if q = "EUR/USD" then .ok 1 else .raised) false
      [("GBP/USD", 2)]).1 (by decide),
   (C8_tick_failure_behavior 60 ["EUR/USD"] (fun _ => .ok 1) true []).2
      [("EUR/USD", 1)] (by decide)⟩

/-! ## `strategies/single_currency/simple_strategy.py` — `SimpleStrategy`

Market data reaches strategies as a dict pair ↦ `{'rate', 'timestamp'}`;
the strategies read only the rate, so a snapshot is modelled as an
association list pair ↦ rate.  The ad-hoc decision dicts
`{'should_trade': ..., 'action': ..., ...}` are modelled by the tagged type
`Decision` (the human-readable `reason` string carries no decision-relevant
information and is omitted). -/

/-- `'buy'` or `'sell'`. -/
inductive Action where
  | buy
  | sell
deriving DecidableEq

/-- `{'should_trade': False}` versus
`{'should_trade': True, 'action': ..., 'currency': ..., 'amount': ...,
'price': ...}`. -/
inductive Decision where
  | noTrade
  | trade (action : Action) (currency : String) (amount : ℚ) (price : ℚ)
deriving DecidableEq

/-- The mutable state of a `SimpleStrategy` instance. -/
structure SimpleStrategy where
  currency_pair : String
  threshold_percent : ℚ
  trade_amount : ℚ
  previous_rate : Option ℚ
deriving DecidableEq

/-- `SimpleStrategy.__init__`: `previous_rate` starts as `None`. -/
def SimpleStrategy.init (currency_pair : String) (threshold_percent trade_amount : ℚ) :
    SimpleStrategy :=
  { currency_pair := currency_pair, threshold_percent := threshold_percent,
    trade_amount := trade_amount, previous_rate := none }

/-- `SimpleStrategy.make_decision` (lines 31–94) as a state transition:
absent pair → `NoTrade`, state untouched; first observation → record the
rate, `NoTrade`; otherwise compare
`percent_change = (current - previous) / previous * 100` against the
threshold (`<= -threshold` buys, `>= threshold` sells, first branch wins)
and update `previous_rate` to `current` unconditionally. -/
def SimpleStrategy.make_decision (s : SimpleStrategy)
    (market_data : List (String × ℚ)) : SimpleStrategy × Decision :=
  match market_data.lookup s.currency_pair with
  | none => (s, .noTrade)
  | some current_rate =>
    match s.previous_rate with
    | none => ({ s with previous_rate := some current_rate }, .noTrade)
    | some previous =>
      let percent_change := (current_rate - previous) / previous * 100
      let decision :=
        if percent_change ≤ -s.threshold_percent then
          Decision.trade .buy s.currency_pair s.trade_amount current_rate
        else if s.threshold_percent ≤ percent_change then
          Decision.trade .sell s.currency_pair s.trade_amount current_rate
        else
          Decision.noTrade
      ({ s with previous_rate := some current_rate }, decision)

/-- Feeding a sequence of snapshots to a strategy instance, keeping only the
evolving state. -/
def SimpleStrategy.run (s : SimpleStrategy)
    (snaps : List (List (String × ℚ))) : SimpleStrategy :=
  snaps.foldl (fun st md => (st.make_decision md).1) s

theorem make_decision_absent (s : SimpleStrategy) (md : List (String × ℚ))
    (h : md.lookup s.currency_pair = none) : s.make_decision md = (s, .noTrade) := by
  unfold SimpleStrategy.make_decision
  rw [h]

theorem run_of_all_absent (s : SimpleStrategy) (pre : List (List (String × ℚ)))
    (h : ∀ snap ∈ pre, snap.lookup s.currency_pair = none) : s.run pre = s := by
  induction pre with
  | nil => rfl
  | cons hd tl ih =>
    have h1 : s.make_decision hd = (s, .noTrade) :=
      make_decision_absent s hd (h hd (List.mem_cons_self _ _))
    show ((s.make_decision hd).1).run tl = s
    rw [h1]
    exact ih fun snap hs => h snap (List.mem_cons_of_mem _ hs)

/-! ### C3: the threshold rule -/

/-- C3: with a recorded previous rate `prev > 0`, a positive threshold, and
the instrument present at rate `cur`, `make_decision` trades iff
`|percent_change| >= threshold` where
`percent_change = (cur - prev) / prev * 100`, buying at `cur` when
`percent_change <= -threshold` and selling at `cur` when
`percent_change >= threshold`. -/
theorem C3_threshold_rule (s : SimpleStrategy) (md : List (String × ℚ))
    (prev cur : ℚ)
    (hprev : s.previous_rate = some prev)
    (hcur : md.lookup s.currency_pair = some cur)
    (ht : 0 < s.threshold_percent) :
    ((s.make_decision md).2 ≠ .noTrade ↔
      s.threshold_percent ≤ |(cur - prev) / prev * 100|) ∧
    ((cur - prev) / prev * 100 ≤ -s.threshold_percent →
      (s.make_decision md).2 = .trade .buy s.currency_pair s.trade_amount cur) ∧
    (s.threshold_percent ≤ (cur - prev) / prev * 100 →
      (s.make_decision md).2 = .trade .sell s.currency_pair s.trade_amount cur) := by
  have hmd : s.make_decision md =
      ({ s with previous_rate := some cur },
        if (cur - prev) / prev * 100 ≤ -s.threshold_percent then
          Decision.trade .buy s.currency_pair s.trade_amount cur
        else if s.threshold_percent ≤ (cur - prev) / prev * 100 then
          Decision.trade .sell s.currency_pair s.trade_amount cur
        else
          Decision.noTrade) := by
    unfold SimpleStrategy.make_decision
    rw [hcur, hprev]
  rw [hmd]
  dsimp only
  refine ⟨?_, ?_, ?_⟩
  · by_cases h1 : (cur - prev) / prev * 100 ≤ -s.threshold_percent
    · rw [if_pos h1]
      constructor
      · intro _
        exact le_abs.mpr (Or.inr (by linarith))
      · intro _
        simp
    · rw [if_neg h1]
      by_cases h2 : s.threshold_percent ≤ (cur - prev) / prev * 100
      · rw [if_pos h2]
        constructor
        · intro _
          exact le_abs.mpr (Or.inl h2)
        · intro _
          simp
      · rw [if_neg h2]
        constructor
        · intro hc
          exact absurd rfl hc
        · intro hc
          rcases le_abs.mp hc with hc | hc
          · exact absurd hc h2
          · exact absurd (by linarith : (cur - prev) / prev * 100 ≤
              -s.threshold_percent) h1
  · intro h1
    rw [if_pos h1]
  · intro h2
    have h1 : ¬ (cur - prev) / prev * 100 ≤ -s.threshold_percent := by linarith
    rw [if_neg h1, if_pos h2]

/-- Witness for `C3_threshold_rule`: USD/JPY falls from 150 to 147 with
threshold 2.0 — a 2% drop, so the strategy buys at 147. -/
theorem C3_threshold_rule_witness :
    (((SimpleStrategy.mk "USD/JPY" 2 1000 (some 150)).make_decision
          [("USD/JPY", 147)]).2 ≠ .noTrade ↔
      (2 : ℚ) ≤ |((147 : ℚ) - 150) / 150 * 100|) ∧
    (((147 : ℚ) - 150) / 150 * 100 ≤ -(2 : ℚ) →
      ((SimpleStrategy.mk "USD/JPY" 2 1000 (some 150)).make_decision
          [("USD/JPY", 147)]).2 = .trade .buy "USD/JPY" 1000 147) ∧
    ((2 : ℚ) ≤ ((147 : ℚ) - 150) / 150 * 100 →
      ((SimpleStrategy.mk "USD/JPY" 2 1000 (some 150)).make_decision
          [("USD/JPY", 147)]).2 = .trade .sell "USD/JPY" 1000 147) :=
  C3_threshold_rule (SimpleStrategy.mk "USD/JPY" 2 1000 (some 150))
    [("USD/JPY", 147)] 150 147 rfl (by decide) (by decide)

/-! ### C4: the first observation never trades -/

/-- C4: from a fresh `SimpleStrategy`, after any prefix of snapshots that do
not contain the configured instrument (which leave the state untouched), the
first snapshot that does contain it yields `NoTrade` and records its rate as
the new baseline. -/
theorem C4_first_observation_baseline (pair : String) (threshold amount : ℚ)
    (pre : List (List (String × ℚ))) (md : List (String × ℚ)) (r : ℚ)
    (hpre : ∀ snap ∈ pre, snap.lookup pair = none)
    (hr : md.lookup pair = some r) :
    (((SimpleStrategy.init pair threshold amount).run pre).make_decision md).2 =
      .noTrade ∧
    (((SimpleStrategy.init pair threshold amount).run pre).make_decision
        md).1.previous_rate = some r := by
  have hrun : (SimpleStrategy.init pair threshold amount).run pre =
      SimpleStrategy.init pair threshold amount :=
    run_of_all_absent _ pre hpre
  rw [hrun]
  have hstep : (SimpleStrategy.init pair threshold amount).make_decision md =
      ({ SimpleStrategy.init pair threshold amount with previous_rate := some r },
        .noTrade) := by
    unfold SimpleStrategy.make_decision
    rw [show (SimpleStrategy.init pair threshold amount).currency_pair = pair from rfl,
      hr]
    rfl
  rw [hstep]
  exact ⟨rfl, rfl⟩

/-- Witness for `C4_first_observation_baseline`: one leading snapshot
without USD/JPY, then a snapshot quoting USD/JPY at 150: no trade, baseline
150. -/
theorem C4_first_observation_baseline_witness :
    (((SimpleStrategy.init "USD/JPY" 1 1000).run
        [[("GBP/USD", 2)]]).make_decision [("USD/JPY", 150)]).2 = .noTrade ∧
    (((SimpleStrategy.init "USD/JPY" 1 1000).run
        [[("GBP/USD", 2)]]).make_decision
        [("USD/JPY", 150)]).1.previous_rate = some 150 :=
  C4_first_observation_baseline "USD/JPY" 1 1000 [[("GBP/USD", 2)]]
    [("USD/JPY", 150)] 150 (by decide) (by decide)

/-! ## `core/engine/trading_bot.py` — `TradingBot.check_and_execute`

One cycle wraps `get_latest_data`, `strategy.make_decision` and (for a
trade) `_execute_trade` in a single `try`; any exception anywhere in it is
caught and the cycle returns `False`.  `_execute_trade` logs, appends one
record to `self.trade_history`, and prints; in the reference code its api
call is commented out, so modelling the cycle body as an `Except`
computation in which fetch and strategy may fail captures every raise site
that reaches the handler. -/

/-- An entry of `self.trade_history` (the `reason` string is omitted, as in
`Decision`). -/
structure TradeRecord where
  timestamp : Nat
  action : Action
  currency : String
  amount : ℚ
  price : ℚ
deriving DecidableEq

/-- `TradingBot.check_and_execute` (lines 40–61) plus `_execute_trade`
(lines 63–94) as a function of the outcome of the data fetch and of the
strategy call: returns the cycle's reported `Bool` and the trade history
after the cycle. -/
def check_and_execute (fetch_result : Except String (List (String × ℚ)))
    (strategy_result : List (String × ℚ) → Except String Decision)
    (now : Nat) (trade_history : List TradeRecord) : Bool × List TradeRecord :=
  match fetch_result with
  | .error _ => (false, trade_history)
  | .ok current_data =>
    match strategy_result current_data with
    | .error _ => (false, trade_history)
    | .ok .noTrade => (true, trade_history)
    | .ok (.trade action currency amount price) =>
      (true, trade_history ++ [⟨now, action, currency, amount, price⟩])

/-! ### C9: cycle-level error handling and the audit log -/

/-- C9: an exception from the fetch or from the strategy is caught inside
`check_and_execute`, which returns `False` with the trade history untouched
(never propagating); a `NoTrade` cycle returns `True` and appends nothing;
a trade decision returns `True` and appends exactly one record. -/
theorem C9_cycle_error_handling (fetch_result : Except String (List (String × ℚ)))
    (strategy_result : List (String × ℚ) → Except String Decision)
    (now : Nat) (trade_history : List TradeRecord) :
    (∀ e, fetch_result = .error e →
      check_and_execute fetch_result strategy_result now trade_history =
        (false, trade_history)) ∧
    (∀ snap e, fetch_result = .ok snap → strategy_result snap = .error e →
      check_and_execute fetch_result strategy_result now trade_history =
        (false, trade_history)) ∧
    (∀ snap, fetch_result = .ok snap → strategy_result snap = .ok .noTrade →
      check_and_execute fetch_result strategy_result now trade_history =
        (true, trade_history)) ∧
    (∀ snap a c amt p, fetch_result = .ok snap →
      strategy_result snap = .ok (.trade a c amt p) →
      check_and_execute fetch_result strategy_result now trade_history =
        (true, trade_history ++ [⟨now, a, c, amt, p⟩]) ∧
      (check_and_execute fetch_result strategy_result now trade_history).2.length =
        trade_history.length + 1) := by
  refine ⟨?_, ?_, ?_, ?_⟩
  · rintro e rfl
    rfl
  · rintro snap e rfl hs
    simp [check_and_execute, hs]
  · rintro snap rfl hs
    simp [check_and_execute, hs]
  · rintro snap a c amt p rfl hs
    refine ⟨by simp [check_and_execute, hs], ?_⟩
    simp [check_and_execute, hs]

/-- Witness for `C9_cycle_error_handling`: a raising fetch yields a failed
cycle with no history change; a `NoTrade` cycle succeeds without appending;
a buy decision appends exactly the one corresponding record. -/
theorem C9_cycle_error_handling_witness :
    (check_and_execute (.error "boom") (fun _ => .ok .noTrade) 7 [] = (false, [])) ∧
    (check_and_execute (.ok [("EUR/USD", 1)]) (fun _ => .ok .noTrade) 7 [] =
      (true, [])) ∧
    (check_and_execute (.ok [("EUR/USD", 1)])
        (fun _ => .ok (.trade .buy "EUR/USD" 1000 1)) 7 [] =
      (true, [⟨7, .buy, "EUR/USD", 1000, 1⟩])) :=
  ⟨(C9_cycle_error_handling (.error "boom") (fun _ => .ok .noTrade) 7 []).1
      "boom" rfl,
   (C9_cycle_error_handling (.ok [("EUR/USD", 1)]) (fun _ => .ok .noTrade) 7
      []).2.2.1 [("EUR/USD", 1)] rfl rfl,
   ((C9_cycle_error_handling (.ok [("EUR/USD", 1)])
      (fun _ => .ok (.trade .buy "EUR/USD" 1000 1)) 7 []).2.2.2
      [("EUR/USD", 1)] .buy "EUR/USD" 1000 1 rfl rfl).1⟩

/-! ## `strategies/multi_currency/correlation_strategy.py`

`make_decision` consumes the dict produced by `_calculate_divergence`
(one entry per surviving secondary pair, keyed by that pair).  That dict is
passed in here as a list of `DivergenceData` in insertion order; dict keys
are unique, so carrying each whole entry through the max-scan is the same
as carrying the key and re-indexing the dict at the end, which is what the
Python does.  Float NaN never compares greater than anything, so an entry
whose divergence is NaN can never be selected by the scan; the rational
model therefore covers every tick on which the surviving entries carry real
numbers.  (`correlation_window` and the informational
`historical_correlations` cache play no part in the decision.) -/

/-- One value of the `divergence_data` dict (lines 181–186). -/
structure DivergenceData where
  pair : String
  correlation : ℚ
  primary_change : ℚ
  secondary_change : ℚ
  divergence : ℚ
deriving DecidableEq

/-- Configuration of a `CorrelationStrategy` instance. -/
structure CorrelationStrategy where
  primary_pair : String
  secondary_pairs : List String
  divergence_threshold : ℚ
  trade_amount : ℚ
deriving DecidableEq

/-- One iteration of the `for pair, data in divergence_data.items()` scan
(lines 80–86): the running pair/value, updated on a strictly greater
absolute divergence. -/
def scan_step (acc : Option DivergenceData × ℚ) (data : DivergenceData) :
    Option DivergenceData × ℚ :=
  if |data.divergence| > acc.2 then (some data, |data.divergence|) else acc

/-- The whole scan, from `max_divergence_pair = None`,
`max_divergence_value = 0`. -/
def max_divergence_scan (divergence_data : List DivergenceData) :
    Option DivergenceData × ℚ :=
  divergence_data.foldl scan_step (none, 0)

/-- `CorrelationStrategy.make_decision` (lines 51–116): guard on the
presence of the primary and of every secondary pair, bail out on an empty
divergence dict, scan for the maximal absolute divergence, and, when it
exceeds the threshold, trade the primary with the sign-rule direction.  The
`none` result models the uncaught `KeyError` the Python would raise on
`divergence_data[None]` (reachable only with a negative threshold). -/
def CorrelationStrategy.make_decision (s : CorrelationStrategy)
    (market_data : List (String × ℚ)) (divergence_data : List DivergenceData) :
    Option Decision :=
  match market_data.lookup s.primary_pair with
  | none => some .noTrade
  | some primary_rate =>
    if s.secondary_pairs.any (fun p => (market_data.lookup p).isNone) then
      some .noTrade
    else if divergence_data.isEmpty then
      some .noTrade
    else
      let scanned := max_divergence_scan divergence_data
      if scanned.2 > s.divergence_threshold then
        match scanned.1 with
        | some data =>
          let action :=
            if data.correlation > 0 then
              if data.divergence > 0 then Action.sell else Action.buy
            else
              if data.divergence > 0 then Action.buy else Action.sell
          some (.trade action s.primary_pair s.trade_amount primary_rate)
        | none => none
      else
        some .noTrade

theorem scan_le (l : List DivergenceData) (acc : Option DivergenceData × ℚ) :
    acc.2 ≤ (l.foldl scan_step acc).2 := by
  induction l generalizing acc with
  | nil => exact le_refl _
  | cons d rest ih =>
    refine le_trans ?_ (ih (scan_step acc d))
    unfold scan_step
    by_cases h : |d.divergence| > acc.2
    · rw [if_pos h]
      exact le_of_lt h
    · rw [if_neg h]

theorem scan_all_le (l : List DivergenceData) (acc : Option DivergenceData × ℚ) :
    ∀ e ∈ l, |e.divergence| ≤ (l.foldl scan_step acc).2 := by
  induction l generalizing acc with
  | nil => intro e he; exact absurd he (List.not_mem_nil e)
  | cons d rest ih =>
    intro e he
    rcases List.mem_cons.mp he with rfl | he'
    · refine le_trans ?_ (scan_le rest (scan_step acc e))
      unfold scan_step
      by_cases h : |e.divergence| > acc.2
      · rw [if_pos h]
      · rw [if_neg h]
        exact le_of_not_lt h
    · exact ih (scan_step acc d) e he'

theorem scan_some (l : List DivergenceData) (acc : Option DivergenceData × ℚ) :
    ∀ e v, l.foldl scan_step acc = (some e, v) →
      acc = (some e, v) ∨ (e ∈ l ∧ |e.divergence| = v) := by
  induction l generalizing acc with
  | nil => intro e v h; exact Or.inl h
  | cons d rest ih =>
    intro e v h
    rcases ih (scan_step acc d) e v h with hacc | ⟨hmem, hval⟩
    · unfold scan_step at hacc
      by_cases hgt : |d.divergence| > acc.2
      · rw [if_pos hgt] at hacc
        have h1 : some d = some e := congrArg Prod.fst hacc
        have h2 : |d.divergence| = v := congrArg Prod.snd hacc
        cases Option.some_inj.mp h1
        exact Or.inr ⟨List.mem_cons_self _ _, h2⟩
      · rw [if_neg hgt] at hacc
        exact Or.inl hacc
    · exact Or.inr ⟨List.mem_cons_of_mem _ hmem, hval⟩

theorem scan_bounded (l : List DivergenceData) (acc : Option DivergenceData × ℚ)
    (th : ℚ) (hacc : acc.2 ≤ th) (h : ∀ e ∈ l, |e.divergence| ≤ th) :
    (l.foldl scan_step acc).2 ≤ th := by
  induction l generalizing acc with
  | nil => exact hacc
  | cons d rest ih =>
    refine ih (scan_step acc d) ?_ fun e he => h e (List.mem_cons_of_mem _ he)
    unfold scan_step
    by_cases hgt : |d.divergence| > acc.2
    · rw [if_pos hgt]
      exact h d (List.mem_cons_self _ _)
    · rw [if_neg hgt]
      exact hacc

/-! ### C5: the divergence sign rule -/

/-- C5: with a nonnegative threshold, the primary and all secondaries
quoted, and `e` the entry selected by the maximal-absolute-divergence scan:
if its `mv = |e.divergence|` (which bounds every entry's absolute
divergence) exceeds the threshold, the decision is a trade on the primary
whose action is `sell` exactly when `(c > 0 ∧ d > 0) ∨ (c ≤ 0 ∧ d < 0)` for
that entry's correlation `c` and divergence `d`, and `buy` otherwise; and
whenever every entry's `|d|` is at most the threshold the decision is
`NoTrade`. -/
theorem C5_divergence_sign_rule (s : CorrelationStrategy)
    (market_data : List (String × ℚ)) (divergence_data : List DivergenceData)
    (primary_rate : ℚ)
    (hth : 0 ≤ s.divergence_threshold)
    (hp : market_data.lookup s.primary_pair = some primary_rate)
    (hs : ∀ p ∈ s.secondary_pairs, (market_data.lookup p).isSome) :
    ((∀ e ∈ divergence_data, |e.divergence| ≤ s.divergence_threshold) →
      s.make_decision market_data divergence_data = some .noTrade) ∧
    (∀ e mv, max_divergence_scan divergence_data = (some e, mv) →
      s.divergence_threshold < mv →
      e ∈ divergence_data ∧ |e.divergence| = mv ∧
      (∀ e2 ∈ divergence_data, |e2.divergence| ≤ mv) ∧
      s.make_decision market_data divergence_data =
        some (.trade
          (if (0 < e.correlation ∧ 0 < e.divergence) ∨
              (e.correlation ≤ 0 ∧ e.divergence < 0) then Action.sell
            else Action.buy)
          s.primary_pair s.trade_amount primary_rate)) := by
  have hsec : s.secondary_pairs.any (fun p => (market_data.lookup p).isNone) = false := by
    rw [List.any_eq_false]
    intro p hp'
    have := hs p hp'
    intro hnone
    rw [Option.isNone_iff_eq_none] at hnone
    rw [hnone] at this
    simp at this
  constructor
  · intro hall
    unfold CorrelationStrategy.make_decision
    rw [hp]
    dsimp only
    simp only [hsec, Bool.false_eq_true, if_false]
    cases hdd : divergence_data.isEmpty with
    | true => simp
    | false =>
      simp only [Bool.false_eq_true, if_false]
      have hb : (max_divergence_scan divergence_data).2 ≤ s.divergence_threshold :=
        scan_bounded divergence_data (none, 0) s.divergence_threshold hth hall
      rw [if_neg (not_lt.mpr hb)]
  · intro e mv hscan hgt
    have hsome := scan_some divergence_data (none, 0) e mv hscan
    rcases hsome with hacc | ⟨hmem, hval⟩
    · exact absurd (congrArg Prod.fst hacc) (by simp)
    have hall_le : ∀ e2 ∈ divergence_data, |e2.divergence| ≤ mv := by
      intro e2 he2
      have := scan_all_le divergence_data (none, 0) e2 he2
      rw [show (divergence_data.foldl scan_step (none, 0)) = (some e, mv) from hscan]
        at this
      exact this
    have hne : divergence_data.isEmpty = false := by
      cases divergence_data with
      | nil => exact absurd hmem (List.not_mem_nil e)
      | cons _ _ => rfl
    have hd0 : e.divergence ≠ 0 := by
      intro h0
      rw [h0, abs_zero] at hval
      rw [← hval] at hgt
      exact absurd hgt (not_lt.mpr hth)
    have hact :
        (if e.correlation > 0 then
          if e.divergence > 0 then Action.sell else Action.buy
        else
          if e.divergence > 0 then Action.buy else Action.sell) =
        (if (0 < e.correlation ∧ 0 < e.divergence) ∨
            (e.correlation ≤ 0 ∧ e.divergence < 0) then Action.sell
          else Action.buy) := by
      by_cases hc : 0 < e.correlation
      · by_cases hd : 0 < e.divergence
        · rw [if_pos hc, if_pos hd, if_pos (Or.inl ⟨hc, hd⟩)]
        · rw [if_pos hc, if_neg hd, if_neg ?_]
          rintro (⟨-, h⟩ | ⟨h, -⟩)
          · exact hd h
          · exact (not_le.mpr hc) h
      · by_cases hd : 0 < e.divergence
        · rw [if_neg hc, if_pos hd, if_neg ?_]
          rintro (⟨h, -⟩ | ⟨-, h⟩)
          · exact hc h
          · exact absurd hd (not_lt.mpr (le_of_lt h))
        · rw [if_neg hc, if_neg hd,
            if_pos (Or.inr ⟨le_of_not_lt hc,
              lt_of_le_of_ne (le_of_not_lt hd) hd0⟩)]
    refine ⟨hmem, hval, hall_le, ?_⟩
    unfold CorrelationStrategy.make_decision
    rw [hp]
    dsimp only
    simp only [hsec, Bool.false_eq_true, if_false, hne]
    rw [show max_divergence_scan divergence_data = (some e, mv) from hscan]
    dsimp only
    rw [if_pos hgt, hact]

/-- Witness for `C5_divergence_sign_rule`: one secondary with correlation 1
and divergence 2 against threshold 1 — positive correlation, positive
divergence, so the primary is sold at its quoted rate. -/
theorem C5_divergence_sign_rule_witness :
    DivergenceData.mk "GBP/USD" 1 2 0 2 ∈ [DivergenceData.mk "GBP/USD" 1 2 0 2] ∧
    |(DivergenceData.mk "GBP/USD" 1 2 0 2).divergence| = 2 ∧
    (∀ e2 ∈ [DivergenceData.mk "GBP/USD" 1 2 0 2], |e2.divergence| ≤ 2) ∧
    (CorrelationStrategy.mk "EUR/USD" ["GBP/USD"] 1 1000).make_decision
        [("EUR/USD", 1), ("GBP/USD", 2)] [DivergenceData.mk "GBP/USD" 1 2 0 2] =
      some (.trade
        (if (0 < (DivergenceData.mk "GBP/USD" 1 2 0 2).correlation ∧
              0 < (DivergenceData.mk "GBP/USD" 1 2 0 2).divergence) ∨
            ((DivergenceData.mk "GBP/USD" 1 2 0 2).correlation ≤ 0 ∧
              (DivergenceData.mk "GBP/USD" 1 2 0 2).divergence < 0) then Action.sell
          else Action.buy)
        "EUR/USD" 1000 1) :=
  (C5_divergence_sign_rule (CorrelationStrategy.mk "EUR/USD" ["GBP/USD"] 1 1000)
    [("EUR/USD", 1), ("GBP/USD", 2)] [DivergenceData.mk "GBP/USD" 1 2 0 2] 1
    (by decide) (by decide) (by decide)).2
    (DivergenceData.mk "GBP/USD" 1 2 0 2) 2 (by decide) (by decide)

/-! ### `_calculate_divergence` (lines 150–177): correlation and divergence

The rolling-correlation series that pandas hands back is a `List (Option ℚ)`
in date order: `none` stands for a NaN entry (window not yet full), `some c`
for a defined value.  `np.sign` and float arithmetic propagate NaN, modelled
by `Option`-valued operations.  The percent changes of lines 163–172 are
plain (finite) numbers computed from the two nonempty histories; they enter
here as the rational parameters `primary_change` and `secondary_change`. -/

/-- `np.sign` on a float that may be NaN. -/
def np_sign : Option ℚ → Option ℚ
  | none => none
  | some r => some (if 0 < r then 1 else if r < 0 then -1 else 0)

/-- Float multiplication with NaN propagation. -/
def nan_mul : Option ℚ → Option ℚ → Option ℚ
  | some a, some b => some (a * b)
  | _, _ => none

/-- Float subtraction with NaN propagation. -/
def nan_sub : Option ℚ → Option ℚ → Option ℚ
  | some a, some b => some (a - b)
  | _, _ => none

/-- Line 157: `correlation.iloc[-1] if not correlation.empty else 0`.
The plain `0` is taken only when the **series** is empty; a nonempty series
contributes its last element even when that element is NaN. -/
def latest_correlation (correlation : List (Option ℚ)) : Option ℚ :=
  match correlation.getLast? with
  | none => some 0
  | some v => v

/-- Lines 157–177 for one secondary pair: the correlation value used and
`divergence = primary_change - secondary_change * np.sign(latest)`. -/
def calculate_divergence_entry (primary_change secondary_change : ℚ)
    (correlation : List (Option ℚ)) : Option ℚ × Option ℚ :=
  let latest := latest_correlation correlation
  (latest, nan_sub (some primary_change) (nan_mul (some secondary_change) (np_sign latest)))

/-! ### C6: which correlation value is actually used -/

/-- C6 counterexample: a nonempty correlation series whose latest value is
NaN (window not yet full).  The claim says that value is "taken as 0", which
with `primary_change = secondary_change = 1` would give correlation 0 and
divergence `1`; the code instead keeps the NaN, and the divergence is NaN
too. -/
theorem C6_counterexample :
    calculate_divergence_entry 1 1 [none] = (none, none) ∧
    (calculate_divergence_entry 1 1 [none]).1 ≠ some 0 ∧
    (calculate_divergence_entry 1 1 [none]).2 ≠ some 1 := by
  decide

/-- C6 (amended): the correlation `c` used is the latest value of the
trailing correlation series, with `0` substituted only when the **series is
empty** (then the divergence is exactly `primary_change`); when the latest
value is a defined `c`, `divergence = primary_change - secondary_change *
sign(c)` with `sign(0) = 0`, so it reduces to `primary_change` at `c = 0`;
but when the series is nonempty with an undefined (NaN) latest value, that
NaN is used as-is and the divergence is NaN, not `primary_change`. -/
theorem C6_latest_correlation_divergence (primary_change secondary_change : ℚ)
    (correlation : List (Option ℚ)) :
    (correlation = [] →
      calculate_divergence_entry primary_change secondary_change correlation =
        (some 0, some primary_change)) ∧
    (∀ c, correlation.getLast? = some (some c) →
      calculate_divergence_entry primary_change secondary_change correlation =
        (some c, some (primary_change - secondary_change *
          (if 0 < c then 1 else if c < 0 then -1 else 0))) ∧
      (c = 0 →
        calculate_divergence_entry primary_change secondary_change correlation =
          (some 0, some primary_change))) ∧
    (correlation.getLast? = some none →
      calculate_divergence_entry primary_change secondary_change correlation =
        (none, none)) := by
  refine ⟨?_, ?_, ?_⟩
  · rintro rfl
    simp [calculate_divergence_entry, latest_correlation, np_sign, nan_mul, nan_sub]
  · intro c hc
    have hmain : calculate_divergence_entry primary_change secondary_change correlation =
        (some c, some (primary_change - secondary_change *
          (if 0 < c then 1 else if c < 0 then -1 else 0))) := by
      simp only [calculate_divergence_entry, latest_correlation, hc, np_sign,
        nan_mul, nan_sub]
    refine ⟨hmain, ?_⟩
    rintro rfl
    rw [hmain]
    simp
  · intro hc
    simp only [calculate_divergence_entry, latest_correlation, hc, np_sign,
      nan_mul, nan_sub]

/-- Witness for `C6_latest_correlation_divergence`: an empty series gives
correlation 0 and divergence `primary_change`; a series ending in the
defined value 2 gives correlation 2 and the sign-rule divergence; a series
ending in NaN gives NaN for both. -/
theorem C6_latest_correlation_divergence_witness :
    calculate_divergence_entry 3 5 [] = (some 0, some 3) ∧
    calculate_divergence_entry 3 5 [some 2] =
      (some 2, some (3 - 5 * (if (0 : ℚ) < 2 then 1 else if (2 : ℚ) < 0 then -1
        else 0))) ∧
    calculate_divergence_entry 3 5 [some 2, none] = (none, none) :=
  ⟨(C6_latest_correlation_divergence 3 5 []).1 rfl,
   ((C6_latest_correlation_divergence 3 5 [some 2]).2.1 2 (by decide)).1,
   (C6_latest_correlation_divergence 3 5 [some 2, none]).2.2 (by decide)⟩

end AFTC
